import Mathlib

/-
Verification of the conversation core of the healthcare-agent-orchestrator demo
client: mention routing (src/democlient/src/utils/messageParsing.ts), the chat
store reducers (src/democlient/src/store/slices/chatSlice.ts), the streaming
transport (src/democlient/src/services/backendAuthService.ts), and the
persistence adapter (storage utility saveState/loadState together with the
store subscription that snapshots the chat slice).

Machine dates (JS `Date`) are modelled as `Int` epoch milliseconds.  JSON
serialization of a `Date` goes through `Date.prototype.toISOString`, which is
embedded below as fixed-format rendering `YYYY-MM-DDTHH:MM:SS.mmmZ` over the
proleptic Gregorian calendar; parsing by `new Date(<ISO text>)` is embedded as
the inverse fixed-format parse.  Rendering is modelled on the years 0..9999
(the window in which toISOString uses the 24-character format); theorems about
round trips carry the corresponding range hypothesis.
-/

/-! Calendar arithmetic: conversion between day numbers and civil dates.
Day numbers are shifted to days since 0000-01-01, and times to milliseconds
since 0000-01-01T00:00:00Z, so that all arithmetic is on `Nat`.
`yearOfEra` selects the year within a 400-year era by a guess-and-correct
step: the candidate `doe / 366` underestimates the year by at most one, and
is bumped when the following year has already begun.  This computes the same
year selection that the ECMAScript specification defines for `YearFromTime`
(the unique year whose first day is not past the given day). -/

def daysBeforeYearOfEra (y : Nat) : Nat := 365 * y + y / 4 - y / 100 + y / 400

def yearOfEra (doe : Nat) : Nat :=
  let q := doe / 366
  if daysBeforeYearOfEra (q + 1) ≤ doe then q + 1 else q

def doeOf (days : Nat) : Nat := (days + 146037) % 146097

def eraOf (days : Nat) : Nat := (days + 146037) / 146097

def yoeOf (days : Nat) : Nat := yearOfEra (doeOf days)

def doyOf (days : Nat) : Nat := doeOf days - daysBeforeYearOfEra (yoeOf days)

def mpOf (days : Nat) : Nat := (5 * doyOf days + 2) / 153

def dayOfMonth (days : Nat) : Nat := doyOf days - (153 * mpOf days + 2) / 5 + 1

def monthOf (days : Nat) : Nat := if mpOf days < 10 then mpOf days + 3 else mpOf days - 9

def yearOf (days : Nat) : Nat :=
  eraOf days * 400 + yoeOf days + (if monthOf days ≤ 2 then 1 else 0) - 400

def daysFromCivil (y m d : Nat) : Nat :=
  let y' := y + 400 - (if m ≤ 2 then 1 else 0)
  let era := y' / 400
  let yoe := y' % 400
  let doy := (153 * (if 2 < m then m - 3 else m + 9) + 2) / 5 + d - 1
  let doe := yoe * 365 + yoe / 4 - yoe / 100 + doy
  era * 146097 + doe - 146037

/-! Fixed-format rendering and parsing of `YYYY-MM-DDTHH:MM:SS.mmmZ`,
modelling `Date.prototype.toISOString` (the serialization used by
`JSON.stringify` on a `Date`) and ISO-text parsing by `new Date`.  The parse
checks the separators, that all digit positions hold digits, and the field
ranges; it does not re-check day-of-month against month length, a leniency
that is irrelevant on rendered output. -/

def digitVal (c : Char) : Nat := c.toNat - 48

def renderChars (days ms : Nat) : List Char :=
  [Nat.digitChar (yearOf days / 1000), Nat.digitChar (yearOf days / 100 % 10),
   Nat.digitChar (yearOf days / 10 % 10), Nat.digitChar (yearOf days % 10), '-',
   Nat.digitChar (monthOf days / 10), Nat.digitChar (monthOf days % 10), '-',
   Nat.digitChar (dayOfMonth days / 10), Nat.digitChar (dayOfMonth days % 10), 'T',
   Nat.digitChar (ms / 3600000 / 10), Nat.digitChar (ms / 3600000 % 10), ':',
   Nat.digitChar (ms / 60000 % 60 / 10), Nat.digitChar (ms / 60000 % 60 % 10), ':',
   Nat.digitChar (ms / 1000 % 60 / 10), Nat.digitChar (ms / 1000 % 60 % 10), '.',
   Nat.digitChar (ms % 1000 / 100), Nat.digitChar (ms % 1000 / 10 % 10),
   Nat.digitChar (ms % 1000 % 10), 'Z']

def toISOChars (t : Int) : List Char :=
  renderChars ((t + 62167219200000).toNat / 86400000) ((t + 62167219200000).toNat % 86400000)

def parseISOChars : List Char → Option Int
  | [y1, y2, y3, y4, c1, m1, m2, c2, d1, d2, c3, h1, h2, c4, i1, i2, c5, s1, s2, c6,
     f1, f2, f3, c7] =>
    if c1 = '-' ∧ c2 = '-' ∧ c3 = 'T' ∧ c4 = ':' ∧ c5 = ':' ∧ c6 = '.' ∧ c7 = 'Z' ∧
        y1.isDigit ∧ y2.isDigit ∧ y3.isDigit ∧ y4.isDigit ∧ m1.isDigit ∧ m2.isDigit ∧
        d1.isDigit ∧ d2.isDigit ∧ h1.isDigit ∧ h2.isDigit ∧ i1.isDigit ∧ i2.isDigit ∧
        s1.isDigit ∧ s2.isDigit ∧ f1.isDigit ∧ f2.isDigit ∧ f3.isDigit then
      let y := 1000 * digitVal y1 + 100 * digitVal y2 + 10 * digitVal y3 + digitVal y4
      let m := 10 * digitVal m1 + digitVal m2
      let d := 10 * digitVal d1 + digitVal d2
      let hh := 10 * digitVal h1 + digitVal h2
      let mi := 10 * digitVal i1 + digitVal i2
      let ss := 10 * digitVal s1 + digitVal s2
      let ff := 100 * digitVal f1 + 10 * digitVal f2 + digitVal f3
      if 1 ≤ m ∧ m ≤ 12 ∧ 1 ≤ d ∧ d ≤ 31 ∧ hh ≤ 23 ∧ mi ≤ 59 ∧ ss ≤ 59 then
        some ((daysFromCivil y m d : Int) * 86400000 +
          (3600000 * hh + 60000 * mi + 1000 * ss + ff) - 62167219200000)
      else none
    else none
  | _ => none

def dateToISOString (t : Int) : String := String.mk (toISOChars t)

def parseDate (s : String) : Option Int := parseISOChars s.data

/-- The epoch-millisecond window of instants whose ISO rendering uses the plain
four-digit-year format: 0000-01-01T00:00:00.000Z up to (excluding)
10000-01-01T00:00:00.000Z. -/
def msRepresentable (t : Int) : Prop := -62167219200000 ≤ t ∧ t < 253402300800000

instance (t : Int) : Decidable (msRepresentable t) := by
  unfold msRepresentable; infer_instance

/-! Mention router, from src/democlient/src/utils/messageParsing.ts.

`parseMentions` scans the text with the regular expression
`/@(\w+)(?:\s|$)/g`: a candidate is an `@` followed by a maximal nonempty run
of word characters, and matches only when that run is followed by a
whitespace character or the end of the text (the whitespace is consumed by
the match).  On a failed candidate the scan resumes one position further; on
a successful match it resumes after the consumed characters.  The scan is
embedded with an explicit fuel argument (one unit per consumed character;
`findTokens` supplies the length of the text, which is always sufficient). -/

def isWordChar (c : Char) : Bool :=
  (('a' ≤ c && c ≤ 'z') || ('A' ≤ c && c ≤ 'Z') || ('0' ≤ c && c ≤ '9') || c == '_')

/-- Whitespace as matched by `\s`, restricted to the ASCII whitespace
characters (the Unicode space characters also matched by JS `\s` do not occur
in the claims and are omitted). -/
def isSpaceChar (c : Char) : Bool :=
  (c == ' ' || c == '\t' || c == '\n' || c == '\r' || c == '\x0b' || c == '\x0c')

def findTokensAux : Nat → List Char → List (List Char)
  | 0, _ => []
  | _, [] => []
  | fuel + 1, c :: rest =>
    if c = '@' then
      match rest.takeWhile isWordChar, rest.dropWhile isWordChar with
      | [], _ => findTokensAux fuel rest
      | run, [] => [run]
      | run, c' :: rest' =>
        if isSpaceChar c' then run :: findTokensAux fuel rest'
        else findTokensAux fuel rest
    else findTokensAux fuel rest

def findTokens (cs : List Char) : List (List Char) := findTokensAux cs.length cs

/-- One step of the mention-collection loop: look the candidate name up in the
roster case-insensitively (both sides through toLowerCase, embedded as
character-wise Char.toLower); on a hit, append it unless already collected. -/
def addMention (availableAgents : List String) (acc : List String) (tok : List Char) :
    List String :=
  match availableAgents.find?
      (fun agent => agent.data.map Char.toLower == tok.map Char.toLower) with
  | some agent => if acc.contains agent then acc else acc ++ [agent]
  | none => acc

def parseMentions (content : String) (availableAgents : List String) : List String :=
  match (findTokens content.data).foldl (addMention availableAgents) [] with
  | [] => []
  | m :: _ => [m]

def getTargetAgent (mentions : List String) : String :=
  match mentions with
  | [] => "Orchestrator"
  | m :: _ => m

/-! Conversation store, from src/democlient/src/store/slices/chatSlice.ts.
The embedding covers the state shape and the reducers the claims are about. -/

structure Message where
  id : String
  content : String
  sender : String
  timestamp : Int
  isBot : Bool
  attachments : Option (List String)
  mentions : Option (List String)
deriving DecidableEq

structure Chat where
  id : String
  title : String
  messages : List Message
  createdAt : Int
deriving DecidableEq

structure PendingMessage where
  targetAgent : String
  timestamp : Int
deriving DecidableEq

structure ChatState where
  chats : List Chat
  selectedChatId : Option String
  isLoading : Bool
  pendingResponses : List PendingMessage
deriving DecidableEq

def initialChatState : ChatState :=
  { chats := [], selectedChatId := none, isLoading := false, pendingResponses := [] }

def addChat (c : Chat) (s : ChatState) : ChatState :=
  { s with chats := s.chats ++ [c] }

def deleteChat (chatId : String) (s : ChatState) : ChatState :=
  let chats' := s.chats.filter (fun c => c.id ≠ chatId)
  { s with
    chats := chats',
    selectedChatId :=
      if s.selectedChatId = some chatId then chats'.head?.map Chat.id
      else s.selectedChatId }

def selectChat (chatId : String) (s : ChatState) : ChatState :=
  { s with selectedChatId := some chatId }

def addPendingResponse (p : PendingMessage) (s : ChatState) : ChatState :=
  { s with pendingResponses := s.pendingResponses ++ [p] }

/-- The list-level body of removePendingResponse: findIndex of the first entry
for the agent, then splice that single index out (no entry: unchanged). -/
def removePendingList (agentName : String) (l : List PendingMessage) : List PendingMessage :=
  match l.findIdx? (fun p => p.targetAgent = agentName) with
  | some i => l.eraseIdx i
  | none => l

def removePendingResponse (agentName : String) (s : ChatState) : ChatState :=
  { s with pendingResponses := removePendingList agentName s.pendingResponses }

def clearAllPendingResponses (s : ChatState) : ChatState :=
  { s with pendingResponses := [] }

def setLoading (b : Bool) (s : ChatState) : ChatState :=
  { s with isLoading := b, pendingResponses := if b then s.pendingResponses else [] }

/-! Persistence adapter: the storage utility (saveState/loadState) and the
store subscription that passes it the projection built as the object with the
single field `chat` holding the chat slice.  JSON.stringify serializes every
field of that slice; each `Date` inside serializes as its toISOString text.
loadState parses the document and reconstitutes `new Date(...)` only for the
chats array (createdAt and message timestamps); the other persisted fields,
including the pending-response timestamps, are returned as stored. -/

structure StoredMessage where
  id : String
  content : String
  sender : String
  timestamp : String
  isBot : Bool
  attachments : Option (List String)
  mentions : Option (List String)
deriving DecidableEq

structure StoredChat where
  id : String
  title : String
  messages : List StoredMessage
  createdAt : String
deriving DecidableEq

structure StoredPending where
  targetAgent : String
  timestamp : String
deriving DecidableEq

structure StoredChatState where
  chats : List StoredChat
  selectedChatId : Option String
  isLoading : Bool
  pendingResponses : List StoredPending
deriving DecidableEq

/-- The persisted JSON document: an object with the single field `chat`. -/
structure StoredSnapshot where
  chat : StoredChatState
deriving DecidableEq

def storeMessage (m : Message) : StoredMessage :=
  { id := m.id, content := m.content, sender := m.sender,
    timestamp := dateToISOString m.timestamp, isBot := m.isBot,
    attachments := m.attachments, mentions := m.mentions }

def storeChat (c : Chat) : StoredChat :=
  { id := c.id, title := c.title, messages := c.messages.map storeMessage,
    createdAt := dateToISOString c.createdAt }

def storePending (p : PendingMessage) : StoredPending :=
  { targetAgent := p.targetAgent, timestamp := dateToISOString p.timestamp }

def storeChatState (s : ChatState) : StoredChatState :=
  { chats := s.chats.map storeChat, selectedChatId := s.selectedChatId,
    isLoading := s.isLoading, pendingResponses := s.pendingResponses.map storePending }

/-- saveState applied to the object `\x7b chat: state.chat \x7d` built in the
store subscription: the durable snapshot is the JSON serialization of the
whole chat slice. -/
def saveState (chat : ChatState) : StoredSnapshot :=
  { chat := storeChatState chat }

/-- A message as it comes back from loadState: the timestamp text has been fed
to `new Date`; `none` models an invalid date. -/
structure LoadedMessage where
  id : String
  content : String
  sender : String
  timestamp : Option Int
  isBot : Bool
  attachments : Option (List String)
  mentions : Option (List String)
deriving DecidableEq

structure LoadedChat where
  id : String
  title : String
  messages : List LoadedMessage
  createdAt : Option Int
deriving DecidableEq

structure LoadedChatState where
  chats : List LoadedChat
  selectedChatId : Option String
  isLoading : Bool
  pendingResponses : List StoredPending
deriving DecidableEq

def loadMessage (m : StoredMessage) : LoadedMessage :=
  { id := m.id, content := m.content, sender := m.sender,
    timestamp := parseDate m.timestamp, isBot := m.isBot,
    attachments := m.attachments, mentions := m.mentions }

def loadChat (c : StoredChat) : LoadedChat :=
  { id := c.id, title := c.title, messages := c.messages.map loadMessage,
    createdAt := parseDate c.createdAt }

def loadState (r : StoredSnapshot) : LoadedChatState :=
  { chats := r.chat.chats.map loadChat, selectedChatId := r.chat.selectedChatId,
    isLoading := r.chat.isLoading, pendingResponses := r.chat.pendingResponses }

/-- The shape a message of chat state `s` is expected to take after a
save/load round trip: dates reconstituted to the same instant. -/
def reloadedMessage (m : Message) : LoadedMessage :=
  { id := m.id, content := m.content, sender := m.sender,
    timestamp := some m.timestamp, isBot := m.isBot,
    attachments := m.attachments, mentions := m.mentions }

def reloadedChat (c : Chat) : LoadedChat :=
  { id := c.id, title := c.title, messages := c.messages.map reloadedMessage,
    createdAt := some c.createdAt }

/-! Root store shape (store/index.ts): three slices.  The subscription
callback persists only the chat slice. -/

structure UserInfo where
  id : String
  name : Option String
  email : Option String
  roles : Option (List String)
deriving DecidableEq

structure AuthState where
  user : Option UserInfo
  isAuthenticated : Bool
  loading : Bool
  error : Option String
deriving DecidableEq

structure AgentState where
  availableAgents : List String
  loading : Bool
  error : Option String
deriving DecidableEq

structure RootState where
  auth : AuthState
  chat : ChatState
  agent : AgentState
deriving DecidableEq

/-- The debounced store.subscribe callback: reads the current root state and
writes `saveState` of the object holding only the chat slice. -/
def subscribeSnapshot (s : RootState) : StoredSnapshot := saveState s.chat

/-! Streaming transport, from sendWebSocketMessage in
src/democlient/src/services/backendAuthService.ts.  A channel lifetime is a
sequence of WebSocket events; each handler invocation emits a sequence of
observable actions: forwarding a reply envelope to the per-message callback,
forwarding the synthesized zero-message fallback, or calling resolve/reject
on the turn promise (the promise settles at the first such call).  The
`now` parameter stands for the clock value used for the synthesized ids and
timestamps. -/

structure RawReply where
  id : String
  content : String
  sender : String
  timestamp : String
  isBot : Option Bool
deriving DecidableEq

inductive WsData where
  | done : WsData
  | errorData : String → WsData
  | reply : RawReply → WsData
  | malformed : WsData
deriving DecidableEq

inductive WsEvent where
  | opened : WsEvent
  | message : WsData → WsEvent
  | errorEvent : WsEvent
  | closed : WsEvent
deriving DecidableEq

/-- Reply conversion in the onmessage handler: timestamp through `new Date`,
isBot coerced to a strict boolean by comparison with `true`. -/
def convertReply (r : RawReply) : LoadedMessage :=
  { id := r.id, content := r.content, sender := r.sender,
    timestamp := parseDate r.timestamp, isBot := r.isBot == some true,
    attachments := none, mentions := none }

def fallbackMessage (now : Int) : LoadedMessage :=
  { id := "fallback-" ++ toString now,
    content := "No response was received. Please try again.",
    sender := "System", timestamp := some now, isBot := true,
    attachments := none, mentions := none }

inductive TransportAction where
  | forward : LoadedMessage → TransportAction
  | forwardFallback : LoadedMessage → TransportAction
  | resolve : TransportAction
  | reject : TransportAction
deriving DecidableEq

/-- One handler invocation: given the messagesReceived counter, the updated
counter and the emitted actions.  done resolves (and closes the socket, so a
closed event follows later); an error payload or an error event rejects; a
reply is forwarded and counted; the close handler forwards the synthesized
fallback exactly when the counter is zero, then resolves. -/
def stepEvent (now : Int) (received : Nat) : WsEvent → Nat × List TransportAction
  | WsEvent.opened => (received, [])
  | WsEvent.message WsData.done => (received, [TransportAction.resolve])
  | WsEvent.message (WsData.errorData _) => (received, [TransportAction.reject])
  | WsEvent.message (WsData.reply r) =>
      (received + 1, [TransportAction.forward (convertReply r)])
  | WsEvent.message WsData.malformed => (received, [])
  | WsEvent.errorEvent => (received, [TransportAction.reject])
  | WsEvent.closed =>
      (received,
        (if received = 0 then [TransportAction.forwardFallback (fallbackMessage now)]
         else []) ++ [TransportAction.resolve])

def runChannel (now : Int) : List WsEvent → Nat → List TransportAction
  | [], _ => []
  | e :: es, received =>
      (stepEvent now received e).2 ++ runChannel now es (stepEvent now received e).1

def sendWebSocketMessage (now : Int) (events : List WsEvent) : List TransportAction :=
  runChannel now events 0

def isForward : TransportAction → Bool
  | TransportAction.forward _ => true
  | _ => false

def isFallbackForward : TransportAction → Bool
  | TransportAction.forwardFallback _ => true
  | _ => false

def isSettle : TransportAction → Bool
  | TransportAction.resolve => true
  | TransportAction.reject => true
  | _ => false

/-- Index of the action at which the turn promise settles (first resolve or
reject). -/
def settleIdx (acts : List TransportAction) : Option Nat := acts.findIdx? isSettle

/-- Index of the first forwarded synthesized fallback. -/
def fallbackIdx (acts : List TransportAction) : Option Nat := acts.findIdx? isFallbackForward

/-- Number of reply envelopes among the channel events. -/
def repliesIn : List WsEvent → Nat
  | [] => 0
  | WsEvent.message (WsData.reply _) :: es => repliesIn es + 1
  | _ :: es => repliesIn es

/-! Concrete sample states used by the claim witnesses and counterexamples. -/

def sampleChatA : Chat := { id := "a", title := "A", messages := [], createdAt := 0 }

def sampleChatB : Chat := { id := "b", title := "B", messages := [], createdAt := 1 }

def sampleTwoChatState : ChatState :=
  { chats := [sampleChatA, sampleChatB], selectedChatId := some "a",
    isLoading := false, pendingResponses := [] }

def sampleLedgerState : ChatState :=
  { chats := [], selectedChatId := none, isLoading := true,
    pendingResponses := [{ targetAgent := "Radiology", timestamp := 0 },
      { targetAgent := "Orchestrator", timestamp := 1 },
      { targetAgent := "Orchestrator", timestamp := 2 }] }

def sampleMessage : Message :=
  { id := "m1", content := "hello @Orchestrator", sender := "User",
    timestamp := 1700000000000, isBot := false, attachments := none,
    mentions := some ["Orchestrator"] }

def sampleChatC1 : Chat :=
  { id := "c1", title := "First chat", messages := [sampleMessage],
    createdAt := 1700000000001 }

def samplePersistState : ChatState :=
  { chats := [sampleChatC1],
    selectedChatId := some "c1", isLoading := false,
    pendingResponses := [] }

def sampleUserInfo : UserInfo :=
  { id := "u", name := some "User", email := some "user@example.com",
    roles := some ["user"] }

def sampleAuthState : AuthState :=
  { user := some sampleUserInfo,
    isAuthenticated := true, loading := false, error := none }

def sampleAgentState : AgentState :=
  { availableAgents := ["Orchestrator"], loading := false, error := none }

def sampleLoadingChatState : ChatState :=
  { chats := [], selectedChatId := none, isLoading := true,
    pendingResponses := [{ targetAgent := "Orchestrator", timestamp := 0 }] }

def sampleRootLoading : RootState :=
  { auth := sampleAuthState, chat := sampleLoadingChatState,
    agent := sampleAgentState }

def sampleRootIdle : RootState :=
  { auth := sampleAuthState, chat := initialChatState, agent := sampleAgentState }

/-! Calendar and ISO round-trip lemmas. -/

theorem doeOf_le (days : Nat) : doeOf days ≤ 146096 := by
  simp only [doeOf]; omega

set_option maxHeartbeats 8000000 in
theorem yearOfEra_spec (doe : Nat) (h : doe ≤ 146096) :
    yearOfEra doe ≤ 399 ∧ daysBeforeYearOfEra (yearOfEra doe) ≤ doe ∧
      doe - daysBeforeYearOfEra (yearOfEra doe) ≤ 365 := by
  simp only [yearOfEra, daysBeforeYearOfEra]
  have hq : doe / 366 ≤ 399 := by omega
  set q := doe / 366 with hqq
  interval_cases q <;> split_ifs <;> omega

theorem yoeOf_spec (days : Nat) :
    yoeOf days ≤ 399 ∧ daysBeforeYearOfEra (yoeOf days) ≤ doeOf days ∧
      doyOf days ≤ 365 := by
  have := yearOfEra_spec (doeOf days) (doeOf_le days)
  exact ⟨this.1, this.2.1, this.2.2⟩

theorem daysBeforeYearOfEra_eq (y : Nat) :
    daysBeforeYearOfEra y = 365 * y + y / 4 - y / 100 + y / 400 := rfl

theorem month_spec (days : Nat) :
    (153 * (if 2 < monthOf days then monthOf days - 3 else monthOf days + 9) + 2) / 5
        + dayOfMonth days - 1 = doyOf days ∧
    (monthOf days ≤ 2 ↔ 10 ≤ mpOf days) ∧
    1 ≤ monthOf days ∧ monthOf days ≤ 12 ∧ 1 ≤ dayOfMonth days ∧ dayOfMonth days ≤ 31 := by
  have hdoy : doyOf days ≤ 365 := (yoeOf_spec days).2.2
  have hmp : mpOf days = (5 * doyOf days + 2) / 153 := rfl
  have hdm : dayOfMonth days = doyOf days - (153 * mpOf days + 2) / 5 + 1 := rfl
  simp only [monthOf] at *
  split_ifs <;> omega

theorem yoe_adj (days : Nat) :
    400 ≤ eraOf days * 400 + yoeOf days + (if monthOf days ≤ 2 then 1 else 0) := by
  obtain ⟨hyoe, hS, hdoy⟩ := yoeOf_spec days
  obtain ⟨hrec, hm2, hm1, hm12, hd1, hd31⟩ := month_spec days
  have hSeq := daysBeforeYearOfEra_eq (yoeOf days)
  have hdoyeq : doyOf days = doeOf days - daysBeforeYearOfEra (yoeOf days) := rfl
  have hmp : mpOf days = (5 * doyOf days + 2) / 153 := rfl
  have hdoe : doeOf days = (days + 146037) % 146097 := rfl
  have hera : eraOf days = (days + 146037) / 146097 := rfl
  split_ifs with hc
  · rw [hm2] at hc; omega
  · rw [hm2] at hc
    -- era = 0 forces days ≤ 59, hence doe ≥ 146037, yoe = 399, doy ≥ 306, mp ≥ 10,
    -- contradicting the negated month condition; otherwise era ≥ 1.
    rcases Nat.eq_zero_or_pos (eraOf days) with h0 | h0
    · have hdays : days ≤ 59 := by omega
      have hdoe2 : doeOf days = days + 146037 := by omega
      have hyoe399 : yoeOf days = 399 := by omega
      rw [hyoe399] at hdoyeq
      have h399 : daysBeforeYearOfEra 399 = 145731 := by decide
      rw [h399] at hdoyeq
      have hdoy306 : 306 ≤ doyOf days := by omega
      have : 10 ≤ mpOf days := by omega
      omega
    · omega

theorem civil_roundtrip (days : Nat) :
    daysFromCivil (yearOf days) (monthOf days) (dayOfMonth days) = days := by
  obtain ⟨hyoe, hS, hdoy⟩ := yoeOf_spec days
  obtain ⟨hrec, hm2, hm1, hm12, hd1, hd31⟩ := month_spec days
  have hadj := yoe_adj days
  have hSeq := daysBeforeYearOfEra_eq (yoeOf days)
  have hdoyeq : doyOf days = doeOf days - daysBeforeYearOfEra (yoeOf days) := rfl
  have hdoe : doeOf days = (days + 146037) % 146097 := rfl
  have hera : eraOf days = (days + 146037) / 146097 := rfl
  simp only [daysFromCivil, yearOf]
  rw [hrec]
  set A := eraOf days * 400 + yoeOf days + (if monthOf days ≤ 2 then 1 else 0) with hA
  have h1 : A - 400 + 400 - (if monthOf days ≤ 2 then 1 else 0)
      = eraOf days * 400 + yoeOf days := by omega
  rw [h1]
  have h2 : (eraOf days * 400 + yoeOf days) / 400 = eraOf days := by omega
  have h3 : (eraOf days * 400 + yoeOf days) % 400 = yoeOf days := by omega
  rw [h2, h3]
  omega

theorem year_le (days : Nat) (h : days ≤ 3652424) : yearOf days ≤ 9999 := by
  obtain ⟨hyoe, hS, hdoy⟩ := yoeOf_spec days
  obtain ⟨hrec, hm2, hm1, hm12, hd1, hd31⟩ := month_spec days
  have hSeq := daysBeforeYearOfEra_eq (yoeOf days)
  have hdoyeq : doyOf days = doeOf days - daysBeforeYearOfEra (yoeOf days) := rfl
  have hmp : mpOf days = (5 * doyOf days + 2) / 153 := rfl
  have hdoe : doeOf days = (days + 146037) % 146097 := rfl
  have hera : eraOf days = (days + 146037) / 146097 := rfl
  simp only [yearOf]
  split_ifs with hc
  · rw [hm2] at hc; omega
  · rw [hm2] at hc; omega

theorem epoch_sanity : (yearOf 719528, monthOf 719528, dayOfMonth 719528) = (1970, 1, 1) := by
  decide

theorem civil_sanity : (yearOf 738528, monthOf 738528, dayOfMonth 738528) = (2022, 1, 8) := by
  decide

theorem digitChar_toNat (n : Nat) (h : n < 10) : (Nat.digitChar n).toNat = 48 + n := by
  interval_cases n <;> rfl

theorem digitChar_isDigit (n : Nat) (h : n < 10) : (Nat.digitChar n).isDigit = true := by
  interval_cases n <;> rfl

theorem digitVal_digitChar (n : Nat) (h : n < 10) : digitVal (Nat.digitChar n) = n := by
  simp only [digitVal, digitChar_toNat n h]; omega

set_option maxRecDepth 10000 in
theorem parse_render (days ms : Nat) (hd : days ≤ 3652424) (hm : ms ≤ 86399999) :
    parseISOChars (renderChars days ms) =
      some ((days : Int) * 86400000 + ms - 62167219200000) := by
  have hy := year_le days hd
  obtain ⟨_, hmm2, hm1, hm12, hd1, hd31⟩ := month_spec days
  have e1 := digitVal_digitChar (yearOf days / 1000) (by omega)
  have e2 := digitVal_digitChar (yearOf days / 100 % 10) (by omega)
  have e3 := digitVal_digitChar (yearOf days / 10 % 10) (by omega)
  have e4 := digitVal_digitChar (yearOf days % 10) (by omega)
  have e5 := digitVal_digitChar (monthOf days / 10) (by omega)
  have e6 := digitVal_digitChar (monthOf days % 10) (by omega)
  have e7 := digitVal_digitChar (dayOfMonth days / 10) (by omega)
  have e8 := digitVal_digitChar (dayOfMonth days % 10) (by omega)
  have e9 := digitVal_digitChar (ms / 3600000 / 10) (by omega)
  have e10 := digitVal_digitChar (ms / 3600000 % 10) (by omega)
  have e11 := digitVal_digitChar (ms / 60000 % 60 / 10) (by omega)
  have e12 := digitVal_digitChar (ms / 60000 % 60 % 10) (by omega)
  have e13 := digitVal_digitChar (ms / 1000 % 60 / 10) (by omega)
  have e14 := digitVal_digitChar (ms / 1000 % 60 % 10) (by omega)
  have e15 := digitVal_digitChar (ms % 1000 / 100) (by omega)
  have e16 := digitVal_digitChar (ms % 1000 / 10 % 10) (by omega)
  have e17 := digitVal_digitChar (ms % 1000 % 10) (by omega)
  have b1 := digitChar_isDigit (yearOf days / 1000) (by omega)
  have b2 := digitChar_isDigit (yearOf days / 100 % 10) (by omega)
  have b3 := digitChar_isDigit (yearOf days / 10 % 10) (by omega)
  have b4 := digitChar_isDigit (yearOf days % 10) (by omega)
  have b5 := digitChar_isDigit (monthOf days / 10) (by omega)
  have b6 := digitChar_isDigit (monthOf days % 10) (by omega)
  have b7 := digitChar_isDigit (dayOfMonth days / 10) (by omega)
  have b8 := digitChar_isDigit (dayOfMonth days % 10) (by omega)
  have b9 := digitChar_isDigit (ms / 3600000 / 10) (by omega)
  have b10 := digitChar_isDigit (ms / 3600000 % 10) (by omega)
  have b11 := digitChar_isDigit (ms / 60000 % 60 / 10) (by omega)
  have b12 := digitChar_isDigit (ms / 60000 % 60 % 10) (by omega)
  have b13 := digitChar_isDigit (ms / 1000 % 60 / 10) (by omega)
  have b14 := digitChar_isDigit (ms / 1000 % 60 % 10) (by omega)
  have b15 := digitChar_isDigit (ms % 1000 / 100) (by omega)
  have b16 := digitChar_isDigit (ms % 1000 / 10 % 10) (by omega)
  have b17 := digitChar_isDigit (ms % 1000 % 10) (by omega)
  simp only [renderChars, parseISOChars]
  rw [if_pos ⟨trivial, trivial, trivial, trivial, trivial, trivial, trivial, b1, b2, b3, b4,
    b5, b6, b7, b8, b9, b10, b11, b12, b13, b14, b15, b16, b17⟩]
  simp only [e1, e2, e3, e4, e5, e6, e7, e8, e9, e10, e11, e12, e13, e14, e15, e16, e17]
  have hyrec : 1000 * (yearOf days / 1000) + 100 * (yearOf days / 100 % 10) +
      10 * (yearOf days / 10 % 10) + yearOf days % 10 = yearOf days := by omega
  have hmrec : 10 * (monthOf days / 10) + monthOf days % 10 = monthOf days := by omega
  have hdrec : 10 * (dayOfMonth days / 10) + dayOfMonth days % 10 = dayOfMonth days := by
    omega
  have hhrec : 10 * (ms / 3600000 / 10) + ms / 3600000 % 10 = ms / 3600000 := by omega
  have hirec : 10 * (ms / 60000 % 60 / 10) + ms / 60000 % 60 % 10 = ms / 60000 % 60 := by
    omega
  have hsrec : 10 * (ms / 1000 % 60 / 10) + ms / 1000 % 60 % 10 = ms / 1000 % 60 := by
    omega
  have hfrec : 100 * (ms % 1000 / 100) + 10 * (ms % 1000 / 10 % 10) + ms % 1000 % 10 =
      ms % 1000 := by omega
  rw [hyrec, hmrec, hdrec, hhrec, hirec, hsrec, hfrec]
  rw [if_pos ⟨hm1, hm12, hd1, hd31, by omega, by omega, by omega⟩]
  rw [civil_roundtrip]
  congr 1
  omega

theorem parse_toISO (t : Int) (h1 : -62167219200000 ≤ t) (h2 : t < 253402300800000) :
    parseISOChars (toISOChars t) = some t := by
  rw [toISOChars, parse_render _ _ (by omega) (by omega)]
  congr 1
  omega

theorem parseDate_dateToISOString (t : Int) (h : msRepresentable t) :
    parseDate (dateToISOString t) = some t :=
  parse_toISO t h.1 h.2

/-! Mention-router lemmas. -/

theorem findTokensAux_shape (fuel : Nat) :
    ∀ (cs tok : List Char), tok ∈ findTokensAux fuel cs →
      ∃ pre post, cs = pre ++ '@' :: (tok ++ post) ∧ tok ≠ [] ∧
        (∀ ch ∈ tok, isWordChar ch = true) ∧
        (post = [] ∨ ∃ c2 rest2, post = c2 :: rest2 ∧ isSpaceChar c2 = true) := by
  induction fuel with
  | zero => intro cs tok h; simp [findTokensAux] at h
  | succ fuel ih =>
    intro cs tok h
    match cs with
    | [] => simp [findTokensAux] at h
    | c :: rest =>
      rw [findTokensAux] at h
      by_cases hc : c = '@'
      · rw [if_pos hc] at h
        subst hc
        rcases htk : rest.takeWhile isWordChar with _ | ⟨r0, rrun⟩ <;>
          rcases hdw : rest.dropWhile isWordChar with _ | ⟨c2, rest2⟩ <;>
            rw [htk, hdw] at h
        · simp only [] at h
          obtain ⟨pre, post, hcs, hrest⟩ := ih rest tok h
          exact ⟨'@' :: pre, post, by rw [hcs]; rfl, hrest⟩
        · simp only [] at h
          obtain ⟨pre, post, hcs, hrest⟩ := ih rest tok h
          exact ⟨'@' :: pre, post, by rw [hcs]; rfl, hrest⟩
        · simp only [List.mem_singleton] at h
          subst h
          refine ⟨[], [], ?_, by simp, ?_, Or.inl rfl⟩
          · have := List.takeWhile_append_dropWhile (p := isWordChar) (l := rest)
            rw [htk, hdw] at this
            simp [← this]
          · intro ch hch
            exact List.mem_takeWhile_imp (htk ▸ hch)
        · simp only [] at h
          by_cases hsp : isSpaceChar c2 = true
          · rw [if_pos hsp] at h
            rcases List.mem_cons.mp h with h1 | h1
            · subst h1
              refine ⟨[], c2 :: rest2, ?_, by simp, ?_, Or.inr ⟨c2, rest2, rfl, hsp⟩⟩
              · have := List.takeWhile_append_dropWhile (p := isWordChar) (l := rest)
                rw [htk, hdw] at this
                simp [← this]
              · intro ch hch
                exact List.mem_takeWhile_imp (htk ▸ hch)
            · obtain ⟨pre, post, hcs, hrest⟩ := ih rest2 tok h1
              refine ⟨'@' :: r0 :: rrun ++ c2 :: pre, post, ?_, hrest⟩
              have hr : rest = (r0 :: rrun) ++ c2 :: rest2 := by
                have := List.takeWhile_append_dropWhile (p := isWordChar) (l := rest)
                rw [htk, hdw] at this
                exact this.symm
              rw [hr, hcs]
              simp
          · rw [if_neg hsp] at h
            obtain ⟨pre, post, hcs, hrest⟩ := ih rest tok h
            exact ⟨'@' :: pre, post, by rw [hcs]; rfl, hrest⟩
      · rw [if_neg hc] at h
        obtain ⟨pre, post, hcs, hrest⟩ := ih rest tok h
        exact ⟨c :: pre, post, by rw [hcs]; rfl, hrest⟩

theorem findTokens_shape (cs tok : List Char) (h : tok ∈ findTokens cs) :
    ∃ pre post, cs = pre ++ '@' :: (tok ++ post) ∧ tok ≠ [] ∧
      (∀ ch ∈ tok, isWordChar ch = true) ∧
      (post = [] ∨ ∃ c2 rest2, post = c2 :: rest2 ∧ isSpaceChar c2 = true) :=
  findTokensAux_shape cs.length cs tok h

theorem mem_foldl_addMention (R : List String) (toks : List (List Char)) :
    ∀ (acc : List String) (m : String), m ∈ toks.foldl (addMention R) acc →
      m ∈ acc ∨ (m ∈ R ∧ ∃ tok ∈ toks,
        m.data.map Char.toLower = tok.map Char.toLower) := by
  induction toks with
  | nil => intro acc m h; exact Or.inl h
  | cons t ts ih =>
    intro acc m h
    rw [List.foldl_cons] at h
    rcases ih (addMention R acc t) m h with hacc | ⟨hR, tok, htok, hlow⟩
    · unfold addMention at hacc
      cases hfind : R.find? (fun agent => agent.data.map Char.toLower == t.map Char.toLower)
        with
      | none => rw [hfind] at hacc; simp only [] at hacc; exact Or.inl hacc
      | some a =>
        rw [hfind] at hacc
        simp only [] at hacc
        by_cases hca : acc.contains a
        · rw [if_pos hca] at hacc; exact Or.inl hacc
        · rw [if_neg hca] at hacc
          rcases List.mem_append.mp hacc with h1 | h1
          · exact Or.inl h1
          · have hma : m = a := by simpa using h1
            subst hma
            refine Or.inr ⟨List.mem_of_find?_eq_some hfind, t, List.mem_cons_self t ts, ?_⟩
            have := List.find?_some hfind
            exact eq_of_beq this
    · exact Or.inr ⟨hR, tok, List.mem_cons_of_mem t htok, hlow⟩

/-- Claim C4: for every roster R and text T, parseMentions returns at most one
mention, and that mention, if present, is case-insensitively present in R. -/
theorem claim_C4 (T : String) (R : List String) :
    (parseMentions T R).length ≤ 1 ∧
      ∀ m ∈ parseMentions T R, ∃ r ∈ R,
        m.data.map Char.toLower = r.data.map Char.toLower := by
  unfold parseMentions
  cases hfold : (findTokens T.data).foldl (addMention R) [] with
  | nil => simp
  | cons m0 ms =>
    refine ⟨by simp, ?_⟩
    intro x hx
    have hx1 : x = m0 := by simpa using hx
    subst hx1
    have hm : x ∈ (findTokens T.data).foldl (addMention R) [] := by
      rw [hfold]; exact List.mem_cons_self x ms
    rcases mem_foldl_addMention R _ _ _ hm with h | ⟨hR, _⟩
    · simp at h
    · exact ⟨x, hR, rfl⟩

/-- Claim C4 witness: instantiation at a concrete text and roster. -/
theorem claim_C4_witness :
    (parseMentions "hi @Bob" ["Bob"]).length ≤ 1 ∧
      ∀ m ∈ parseMentions "hi @Bob" ["Bob"], ∃ r ∈ ["Bob"],
        m.data.map Char.toLower = r.data.map Char.toLower :=
  claim_C4 "hi @Bob" ["Bob"]

/-- Claim C1 counterexample: the token `@Orchestrator` in
`"foo@Orchestrator"` follows the non-whitespace character `o`, yet
parseMentions resolves it, because the scan only requires the token to be
followed by whitespace or the end of the text. -/
theorem claim_C1_counterexample :
    parseMentions "foo@Orchestrator" ["Orchestrator"] = ["Orchestrator"] := by decide

/-- Claim C1 (amended): a token `@name` is resolved as a mention only if the
name is a nonempty run of word characters that is followed by a whitespace
character or by the end of the text; the character preceding the `@` (if any)
is irrelevant.  Every resolved mention comes from such a token and matches
the roster case-insensitively. -/
theorem claim_C1_amended (T : String) (R : List String) (m : String)
    (hm : m ∈ parseMentions T R) :
    ∃ pre run post, T.data = pre ++ '@' :: (run ++ post) ∧ run ≠ [] ∧
      (∀ ch ∈ run, isWordChar ch = true) ∧
      (post = [] ∨ ∃ c2 rest2, post = c2 :: rest2 ∧ isSpaceChar c2 = true) ∧
      m ∈ R ∧ m.data.map Char.toLower = run.map Char.toLower := by
  unfold parseMentions at hm
  cases hfold : (findTokens T.data).foldl (addMention R) [] with
  | nil => rw [hfold] at hm; simp at hm
  | cons m0 ms =>
    rw [hfold] at hm
    have hm0 : m = m0 := by simpa using hm
    subst hm0
    have hmem : m ∈ (findTokens T.data).foldl (addMention R) [] := by
      rw [hfold]; exact List.mem_cons_self m ms
    rcases mem_foldl_addMention R _ _ _ hmem with h | ⟨hR, tok, htok, hlow⟩
    · simp at h
    · obtain ⟨pre, post, hcs, hne, hword, hend⟩ := findTokens_shape T.data tok htok
      exact ⟨pre, tok, post, hcs, hne, hword, hend, hR, hlow⟩

/-- Claim C1 witness: the amended statement instantiated at the
counterexample text. -/
theorem claim_C1_witness :
    ∃ pre run post, "foo@Orchestrator".data = pre ++ '@' :: (run ++ post) ∧ run ≠ [] ∧
      (∀ ch ∈ run, isWordChar ch = true) ∧
      (post = [] ∨ ∃ c2 rest2, post = c2 :: rest2 ∧ isSpaceChar c2 = true) ∧
      "Orchestrator" ∈ ["Orchestrator"] ∧
      "Orchestrator".data.map Char.toLower = run.map Char.toLower :=
  claim_C1_amended "foo@Orchestrator" ["Orchestrator"] "Orchestrator" (by decide)

/-- Claim C5: getTargetAgent returns the first mention when the list is
nonempty and the default name Orchestrator otherwise. -/
theorem claim_C5 (mentions : List String) :
    getTargetAgent mentions = mentions.headD "Orchestrator" := by
  cases mentions <;> rfl

/-! Conversation-store lemmas. -/

theorem filter_decomp_of_nodup (cid : String) (l : List Chat)
    (hnd : (l.map Chat.id).Nodup) (ch : Chat) (hch : ch ∈ l) (hid : ch.id = cid) :
    ∃ l1 l2, l = l1 ++ ch :: l2 ∧ l.filter (fun c => c.id ≠ cid) = l1 ++ l2 := by
  induction l with
  | nil => simp at hch
  | cons c rest ih =>
    rw [List.map_cons, List.nodup_cons] at hnd
    by_cases hcid : c.id = cid
    · have hall : ∀ x ∈ rest, x.id ≠ cid := by
        intro x hx hxe
        exact hnd.1 (by rw [hcid, ← hxe]; exact List.mem_map_of_mem Chat.id hx)
      have hch2 : ch = c := by
        rcases List.mem_cons.mp hch with h | h
        · exact h
        · exact absurd hid (hall ch h)
      subst hch2
      refine ⟨[], rest, rfl, ?_⟩
      rw [List.filter_cons_of_neg (by simpa using hcid)]
      rw [List.filter_eq_self.mpr (by intro x hx; simpa using hall x hx)]
      rfl
    · have hch2 : ch ∈ rest := by
        rcases List.mem_cons.mp hch with h | h
        · subst h; exact absurd hid hcid
        · exact h
      obtain ⟨l1, l2, hdec, hfil⟩ := ih hnd.2 hch2
      refine ⟨c :: l1, l2, by rw [hdec]; rfl, ?_⟩
      rw [List.filter_cons_of_pos (by simpa using hcid), hfil]
      rfl

theorem removePendingList_pos (a : String) (l : List PendingMessage)
    (hex : ∃ p ∈ l, p.targetAgent = a) :
    ∃ l1 p l2, l = l1 ++ p :: l2 ∧ p.targetAgent = a ∧ (∀ q ∈ l1, q.targetAgent ≠ a) ∧
      removePendingList a l = l1 ++ l2 := by
  induction l with
  | nil => simp at hex
  | cons x rest ih =>
    by_cases hx : x.targetAgent = a
    · refine ⟨[], x, rest, rfl, hx, by simp, ?_⟩
      unfold removePendingList
      rw [List.findIdx?_cons, if_pos (by simpa using hx)]
      rfl
    · have hex2 : ∃ p ∈ rest, p.targetAgent = a := by
        rcases hex with ⟨p, hp, hpa⟩
        rcases List.mem_cons.mp hp with h | h
        · subst h; exact absurd hpa hx
        · exact ⟨p, h, hpa⟩
      obtain ⟨l1, p, l2, hdec, hpa, hl1, hrem⟩ := ih hex2
      refine ⟨x :: l1, p, l2, by rw [hdec]; rfl, hpa, ?_, ?_⟩
      · intro q hq
        rcases List.mem_cons.mp hq with h | h
        · subst h; exact hx
        · exact hl1 q h
      · unfold removePendingList at hrem ⊢
        rw [List.findIdx?_cons, if_neg (by simpa using hx), List.findIdx?_succ]
        cases hfi : rest.findIdx? (fun q => q.targetAgent = a) with
        | none =>
          rw [hfi] at hrem
          simpa using hrem
        | some i =>
          rw [hfi] at hrem
          simpa using hrem

theorem removePendingList_not_found (a : String) (l : List PendingMessage)
    (h : ∀ p ∈ l, p.targetAgent ≠ a) : removePendingList a l = l := by
  unfold removePendingList
  rw [List.findIdx?_eq_none_iff.mpr (by intro x hx; simpa using h x hx)]

/-- Claim C2 counterexample: dispatching addPendingResponse twice for
Orchestrator with no intervening clear leaves two ledger entries for that
agent, not one. -/
theorem claim_C2_counterexample :
    ((addPendingResponse { targetAgent := "Orchestrator", timestamp := 1 }
        (addPendingResponse { targetAgent := "Orchestrator", timestamp := 0 }
          initialChatState)).pendingResponses.countP
      (fun p => p.targetAgent = "Orchestrator")) = 2 := by decide

/-- Claim C2 (amended): the ledger accumulates duplicates; registering twice
for the same agent adds exactly two entries for that agent (no per-agent
uniqueness is enforced). -/
theorem claim_C2_amended (s : ChatState) (p q : PendingMessage) (a : String)
    (hp : p.targetAgent = a) (hq : q.targetAgent = a) :
    (addPendingResponse q (addPendingResponse p s)).pendingResponses.countP
        (fun r => r.targetAgent = a)
      = s.pendingResponses.countP (fun r => r.targetAgent = a) + 2 := by
  simp [addPendingResponse, List.countP_append, List.countP_cons, hp, hq]

/-- Claim C2 witness: the amended statement at a concrete double dispatch. -/
theorem claim_C2_witness :
    (addPendingResponse { targetAgent := "Orchestrator", timestamp := 1 }
        (addPendingResponse { targetAgent := "Orchestrator", timestamp := 0 }
          initialChatState)).pendingResponses.countP
        (fun r => r.targetAgent = "Orchestrator")
      = initialChatState.pendingResponses.countP
          (fun r => r.targetAgent = "Orchestrator") + 2 :=
  claim_C2_amended initialChatState
    { targetAgent := "Orchestrator", timestamp := 0 }
    { targetAgent := "Orchestrator", timestamp := 1 } "Orchestrator" rfl rfl

/-- Claim C6 counterexample: selecting an id that belongs to no chat is not a
no-op; it changes the selection to that unknown id. -/
theorem claim_C6_counterexample :
    (∀ c ∈ initialChatState.chats, c.id ≠ "x") ∧
      selectChat "x" initialChatState ≠ initialChatState := by decide

/-- Claim C6 (amended): selectChat unconditionally sets the selection to the
given id, known or not, and changes nothing else. -/
theorem claim_C6_amended (s : ChatState) (cid : String) :
    (selectChat cid s).selectedChatId = some cid ∧ (selectChat cid s).chats = s.chats ∧
      (selectChat cid s).isLoading = s.isLoading ∧
      (selectChat cid s).pendingResponses = s.pendingResponses :=
  ⟨rfl, rfl, rfl, rfl⟩

/-- Claim C7: when chat ids are distinct and a chat with the given id exists,
deleteChat removes exactly that chat, preserving the order of the rest; if the
deleted chat was selected, the selection moves to the first remaining chat (or
to none when none remain), and otherwise the selection is unchanged. -/
theorem claim_C7 (s : ChatState) (cid : String)
    (hnodup : (s.chats.map Chat.id).Nodup) (ch : Chat) (hch : ch ∈ s.chats)
    (hid : ch.id = cid) :
    (∃ l1 l2, s.chats = l1 ++ ch :: l2 ∧ (deleteChat cid s).chats = l1 ++ l2) ∧
    (s.selectedChatId = some cid →
      (deleteChat cid s).selectedChatId = ((deleteChat cid s).chats.head?).map Chat.id) ∧
    (s.selectedChatId ≠ some cid → (deleteChat cid s).selectedChatId = s.selectedChatId) := by
  obtain ⟨l1, l2, hdec, hfil⟩ := filter_decomp_of_nodup cid s.chats hnodup ch hch hid
  refine ⟨⟨l1, l2, hdec, hfil⟩, ?_, ?_⟩
  · intro hsel
    simp only [deleteChat, if_pos hsel]
  · intro hsel
    simp only [deleteChat, if_neg hsel]

/-- Claim C7 witness: deleting the selected chat from a concrete two-chat
state. -/
theorem claim_C7_witness :
    (∃ l1 l2, sampleTwoChatState.chats = l1 ++ sampleChatA :: l2 ∧
      (deleteChat "a" sampleTwoChatState).chats = l1 ++ l2) ∧
    (sampleTwoChatState.selectedChatId = some "a" →
      (deleteChat "a" sampleTwoChatState).selectedChatId
        = ((deleteChat "a" sampleTwoChatState).chats.head?).map Chat.id) ∧
    (sampleTwoChatState.selectedChatId ≠ some "a" →
      (deleteChat "a" sampleTwoChatState).selectedChatId
        = sampleTwoChatState.selectedChatId) :=
  claim_C7 sampleTwoChatState "a" (by decide) sampleChatA (by decide) (by decide)

/-- Claim C10: removePendingResponse removes exactly the first ledger entry
for the agent (leaving one fewer entry for it and every other entry in
order), is the identity on the ledger when no entry for the agent exists, and
never touches the chat list, the selection, or the loading flag. -/
theorem claim_C10 (s : ChatState) (a : String) :
    ((∃ p ∈ s.pendingResponses, p.targetAgent = a) →
      ∃ l1 p l2, s.pendingResponses = l1 ++ p :: l2 ∧ p.targetAgent = a ∧
        (∀ q ∈ l1, q.targetAgent ≠ a) ∧
        (removePendingResponse a s).pendingResponses = l1 ++ l2 ∧
        (removePendingResponse a s).pendingResponses.countP
            (fun r => r.targetAgent = a) + 1
          = s.pendingResponses.countP (fun r => r.targetAgent = a) ∧
        (removePendingResponse a s).pendingResponses.filter (fun r => r.targetAgent ≠ a)
          = s.pendingResponses.filter (fun r => r.targetAgent ≠ a)) ∧
    ((∀ p ∈ s.pendingResponses, p.targetAgent ≠ a) →
      (removePendingResponse a s).pendingResponses = s.pendingResponses) ∧
    (removePendingResponse a s).chats = s.chats ∧
    (removePendingResponse a s).selectedChatId = s.selectedChatId ∧
    (removePendingResponse a s).isLoading = s.isLoading := by
  refine ⟨?_, ?_, rfl, rfl, rfl⟩
  · intro hex
    obtain ⟨l1, p, l2, hdec, hpa, hl1, hrem⟩ :=
      removePendingList_pos a s.pendingResponses hex
    have hrem2 : (removePendingResponse a s).pendingResponses = l1 ++ l2 := hrem
    refine ⟨l1, p, l2, hdec, hpa, hl1, hrem2, ?_, ?_⟩
    · rw [hrem2, hdec]
      have hz1 : l1.countP (fun r => r.targetAgent = a) = 0 :=
        List.countP_eq_zero.mpr (by intro x hx; simpa using hl1 x hx)
      simp [List.countP_append, List.countP_cons, hz1, hpa]
    · rw [hrem2, hdec]
      simp only [List.filter_append]
      rw [List.filter_cons_of_neg (by simpa using hpa)]
  · intro hnone
    exact removePendingList_not_found a s.pendingResponses hnone

/-- Claim C10 witness: removing one of two Orchestrator entries from a
concrete ledger with an unrelated Radiology entry. -/
theorem claim_C10_witness :
    ((∃ p ∈ sampleLedgerState.pendingResponses, p.targetAgent = "Orchestrator") →
      ∃ l1 p l2, sampleLedgerState.pendingResponses = l1 ++ p :: l2 ∧
        p.targetAgent = "Orchestrator" ∧
        (∀ q ∈ l1, q.targetAgent ≠ "Orchestrator") ∧
        (removePendingResponse "Orchestrator" sampleLedgerState).pendingResponses
          = l1 ++ l2 ∧
        (removePendingResponse "Orchestrator" sampleLedgerState).pendingResponses.countP
            (fun r => r.targetAgent = "Orchestrator") + 1
          = sampleLedgerState.pendingResponses.countP
              (fun r => r.targetAgent = "Orchestrator") ∧
        (removePendingResponse "Orchestrator" sampleLedgerState).pendingResponses.filter
            (fun r => r.targetAgent ≠ "Orchestrator")
          = sampleLedgerState.pendingResponses.filter
              (fun r => r.targetAgent ≠ "Orchestrator")) ∧
    ((∀ p ∈ sampleLedgerState.pendingResponses, p.targetAgent ≠ "Orchestrator") →
      (removePendingResponse "Orchestrator" sampleLedgerState).pendingResponses
        = sampleLedgerState.pendingResponses) ∧
    (removePendingResponse "Orchestrator" sampleLedgerState).chats
      = sampleLedgerState.chats ∧
    (removePendingResponse "Orchestrator" sampleLedgerState).selectedChatId
      = sampleLedgerState.selectedChatId ∧
    (removePendingResponse "Orchestrator" sampleLedgerState).isLoading
      = sampleLedgerState.isLoading :=
  claim_C10 sampleLedgerState "Orchestrator"

/-! Streaming-transport lemmas. -/

theorem runChannel_append (now : Int) (es1 es2 : List WsEvent) (r : Nat) :
    runChannel now (es1 ++ es2) r
      = runChannel now es1 r ++ runChannel now es2 (r + repliesIn es1) := by
  induction es1 generalizing r with
  | nil => simp [runChannel, repliesIn]
  | cons e es ih =>
    have harg : (stepEvent now r e).1 + repliesIn es = r + repliesIn (e :: es) := by
      cases e with
      | opened => simp [stepEvent, repliesIn]
      | errorEvent => simp [stepEvent, repliesIn]
      | closed => simp [stepEvent, repliesIn]
      | message d =>
        cases d <;> simp [stepEvent, repliesIn]
        omega
    show (stepEvent now r e).2 ++ runChannel now (es ++ es2) (stepEvent now r e).1
      = ((stepEvent now r e).2 ++ runChannel now es (stepEvent now r e).1)
          ++ runChannel now es2 (r + repliesIn (e :: es))
    rw [ih, ← harg, List.append_assoc]

theorem countP_forward_runChannel (now : Int) (es : List WsEvent) :
    ∀ r, (runChannel now es r).countP isForward = repliesIn es := by
  induction es with
  | nil => intro r; simp [runChannel, repliesIn]
  | cons e rest ih =>
    intro r
    show ((stepEvent now r e).2
        ++ runChannel now rest (stepEvent now r e).1).countP isForward = _
    rw [List.countP_append, ih]
    cases e with
    | opened => simp [stepEvent, repliesIn]
    | errorEvent => simp [stepEvent, repliesIn, isForward, List.countP_cons]
    | closed =>
      by_cases hr : r = 0 <;>
        simp [stepEvent, hr, isForward, List.countP_cons, List.countP_append, repliesIn,
          isFallbackForward]
    | message d =>
      cases d <;> simp [stepEvent, repliesIn, isForward, List.countP_cons]
      omega

theorem countP_fallback_runChannel (now : Int) :
    ∀ (es : List WsEvent), WsEvent.closed ∉ es →
      ∀ r, (runChannel now es r).countP isFallbackForward = 0 := by
  intro es
  induction es with
  | nil => intro _ r; simp [runChannel]
  | cons e rest ih =>
    intro h r
    have h2 : WsEvent.closed ∉ rest := fun hx => h (List.mem_cons_of_mem e hx)
    have hrw : runChannel now (e :: rest) r
        = (stepEvent now r e).2 ++ runChannel now rest (stepEvent now r e).1 := rfl
    rw [hrw, List.countP_append, ih h2]
    cases e with
    | closed => exact absurd (List.mem_cons_self WsEvent.closed rest) h
    | opened => simp [stepEvent]
    | errorEvent => simp [stepEvent, isFallbackForward, List.countP_cons]
    | message d => cases d <;> simp [stepEvent, isFallbackForward, List.countP_cons]

theorem runChannel_single_closed (now : Int) (n : Nat) :
    runChannel now [WsEvent.closed] n
      = (if n = 0 then [TransportAction.forwardFallback (fallbackMessage now)] else [])
          ++ [TransportAction.resolve] := by
  show (stepEvent now n WsEvent.closed).2 ++ runChannel now [] (stepEvent now n WsEvent.closed).1
    = _
  simp [runChannel, stepEvent]

/-- Claim C3 counterexample: on the channel trace where the backend opens,
sends only the done sentinel, and the socket then closes, zero reply
envelopes are forwarded and the channel reaches the closed state, and the
close handler does forward exactly one synthesized fallback — but the turn
promise has already settled (resolved) at action index 0, before the fallback
at action index 1, so the fallback is not forwarded before the turn
resolves. -/
theorem claim_C3_counterexample :
    sendWebSocketMessage 0 [WsEvent.opened, WsEvent.message WsData.done, WsEvent.closed]
      = [TransportAction.resolve, TransportAction.forwardFallback (fallbackMessage 0),
          TransportAction.resolve] ∧
    repliesIn [WsEvent.opened, WsEvent.message WsData.done, WsEvent.closed] = 0 ∧
    settleIdx (sendWebSocketMessage 0
        [WsEvent.opened, WsEvent.message WsData.done, WsEvent.closed]) = some 0 ∧
    fallbackIdx (sendWebSocketMessage 0
        [WsEvent.opened, WsEvent.message WsData.done, WsEvent.closed]) = some 1 := by
  decide

/-- Claim C3 (amended): on every channel trace that ends with the close event,
if zero reply envelopes were forwarded then the close handler forwards exactly
one synthesized fallback message immediately before its own resolve call (the
last two actions of the turn); when the turn was already settled by a done or
error sentinel, that settlement precedes the fallback.  If at least one reply
envelope was forwarded, no fallback is forwarded. -/
theorem claim_C3_amended (now : Int) (body : List WsEvent)
    (hnc : WsEvent.closed ∉ body) :
    ((sendWebSocketMessage now (body ++ [WsEvent.closed])).countP isForward = 0 →
      sendWebSocketMessage now (body ++ [WsEvent.closed])
        = runChannel now body 0
            ++ [TransportAction.forwardFallback (fallbackMessage now),
                TransportAction.resolve] ∧
      (sendWebSocketMessage now (body ++ [WsEvent.closed])).countP isFallbackForward
        = 1) ∧
    (0 < (sendWebSocketMessage now (body ++ [WsEvent.closed])).countP isForward →
      (sendWebSocketMessage now (body ++ [WsEvent.closed])).countP isFallbackForward
        = 0) := by
  have hfwd := countP_forward_runChannel now body 0
  have hfb0 := countP_fallback_runChannel now body hnc 0
  have happ : sendWebSocketMessage now (body ++ [WsEvent.closed])
      = runChannel now body 0 ++ runChannel now [WsEvent.closed] (repliesIn body) := by
    unfold sendWebSocketMessage
    rw [runChannel_append, Nat.zero_add]
  rw [happ, runChannel_single_closed]
  constructor
  · intro h0
    rw [List.countP_append, hfwd] at h0
    have hrep : repliesIn body = 0 := by omega
    refine ⟨?_, ?_⟩
    · simp [hrep]
    · rw [List.countP_append, hfb0, hrep]
      simp [isFallbackForward, List.countP_cons, List.countP_append]
  · intro hpos
    rw [List.countP_append, hfwd] at hpos
    have htail : (((if repliesIn body = 0
        then [TransportAction.forwardFallback (fallbackMessage now)] else [])
          ++ [TransportAction.resolve]).countP isForward) = 0 := by
      by_cases hb : repliesIn body = 0 <;>
        simp [hb, isForward, List.countP_cons, List.countP_append]
    rw [htail] at hpos
    have hrep : repliesIn body ≠ 0 := by omega
    rw [List.countP_append, hfb0, if_neg hrep]
    simp [isFallbackForward, List.countP_cons]

/-- Claim C3 witness: the amended statement on the trace that opens and then
closes without any inbound frame. -/
theorem claim_C3_witness :
    ((sendWebSocketMessage 5 ([WsEvent.opened] ++ [WsEvent.closed])).countP isForward = 0 →
      sendWebSocketMessage 5 ([WsEvent.opened] ++ [WsEvent.closed])
        = runChannel 5 [WsEvent.opened] 0
            ++ [TransportAction.forwardFallback (fallbackMessage 5),
                TransportAction.resolve] ∧
      (sendWebSocketMessage 5 ([WsEvent.opened] ++ [WsEvent.closed])).countP
          isFallbackForward = 1) ∧
    (0 < (sendWebSocketMessage 5 ([WsEvent.opened] ++ [WsEvent.closed])).countP isForward →
      (sendWebSocketMessage 5 ([WsEvent.opened] ++ [WsEvent.closed])).countP
          isFallbackForward = 0) :=
  claim_C3_amended 5 [WsEvent.opened] (by decide)

/-! Persistence-adapter lemmas. -/

theorem loadMessage_storeMessage (m : Message) (h : msRepresentable m.timestamp) :
    loadMessage (storeMessage m) = reloadedMessage m := by
  unfold loadMessage storeMessage reloadedMessage
  rw [parseDate_dateToISOString m.timestamp h]

theorem loadChat_storeChat (c : Chat) (hc : msRepresentable c.createdAt)
    (hm : ∀ m ∈ c.messages, msRepresentable m.timestamp) :
    loadChat (storeChat c) = reloadedChat c := by
  unfold loadChat storeChat reloadedChat
  simp only [List.map_map]
  rw [parseDate_dateToISOString c.createdAt hc]
  have hmsg : c.messages.map (loadMessage ∘ storeMessage) = c.messages.map reloadedMessage :=
    List.map_congr_left (fun m hmem => loadMessage_storeMessage m (hm m hmem))
  rw [hmsg]

/-- Claim C8: saving a chat state and loading it back yields the same chat
ids, titles, and message order, with every createdAt and message timestamp
reconstituted to the same instant (as long as each instant lies in the
four-digit-year ISO window), while the remaining persisted fields pass
through unchanged (pending entries keep their stored text timestamps). -/
theorem claim_C8 (s : ChatState)
    (h : ∀ c ∈ s.chats, msRepresentable c.createdAt ∧
      ∀ m ∈ c.messages, msRepresentable m.timestamp) :
    loadState (saveState s)
      = { chats := s.chats.map reloadedChat, selectedChatId := s.selectedChatId,
          isLoading := s.isLoading,
          pendingResponses := s.pendingResponses.map storePending } := by
  have hchats : s.chats.map (loadChat ∘ storeChat) = s.chats.map reloadedChat :=
    List.map_congr_left (fun c hc => loadChat_storeChat c (h c hc).1 (h c hc).2)
  unfold loadState saveState storeChatState
  simp only [List.map_map, hchats]

/-- Claim C8 witness: a concrete one-chat, one-message state round-trips. -/
theorem claim_C8_witness :
    loadState (saveState samplePersistState)
      = { chats := samplePersistState.chats.map reloadedChat,
          selectedChatId := samplePersistState.selectedChatId,
          isLoading := samplePersistState.isLoading,
          pendingResponses := samplePersistState.pendingResponses.map storePending } :=
  claim_C8 samplePersistState (by decide)

/-- Claim C9 counterexample: two root states with the same chat list but
different loading flags and pending ledgers produce different persisted
snapshots, and the snapshot records the loading flag and the pending ledger —
so the snapshot does not contain only the chat list. -/
theorem claim_C9_counterexample :
    sampleRootLoading.chat.chats = sampleRootIdle.chat.chats ∧
      subscribeSnapshot sampleRootLoading ≠ subscribeSnapshot sampleRootIdle ∧
      (subscribeSnapshot sampleRootLoading).chat.isLoading = true ∧
      (subscribeSnapshot sampleRootLoading).chat.pendingResponses ≠ [] := by
  decide

/-- Claim C9 (amended): the persisted snapshot is the serialization of the
entire chat slice — chats, selection, loading flag, and pending ledger (with
dates as ISO text) — and contains nothing from the auth or agent slices
(changing those slices leaves the snapshot unchanged). -/
theorem claim_C9_amended (s : RootState) (a : AuthState) (g : AgentState) :
    subscribeSnapshot { auth := a, chat := s.chat, agent := g } = subscribeSnapshot s ∧
    (subscribeSnapshot s).chat.chats = s.chat.chats.map storeChat ∧
    (subscribeSnapshot s).chat.selectedChatId = s.chat.selectedChatId ∧
    (subscribeSnapshot s).chat.isLoading = s.chat.isLoading ∧
    (subscribeSnapshot s).chat.pendingResponses = s.chat.pendingResponses.map storePending :=
  ⟨rfl, rfl, rfl, rfl, rfl⟩
